import Mathlib

/-!
Shallow embedding of the README/CHANGELOG section-patching engine of
`src/mcp-server/src/readme_updater.py` (class `ReadmeUpdater`), as pure
text transforms over `List Char`.

The Python methods embedded here are:
  * `_update_section_content(content, section_name, new_content)` — regex
    search with pattern `(#+\s+<escaped name>.*?)((?=\n#+\s+)|$)` under
    `re.DOTALL | re.IGNORECASE`, then splice or append-fallback;
  * `add_badge` (its pure text part, after the file read);
  * `update_changelog` (its pure text part, with the date a parameter);
  * helpers `_find_badge_section` and `_find_changelog_insert_point`.

Python `re.search` semantics are modelled for this fixed pattern shape:
leftmost start position; at a start position, `#+` (greedy) then `\s+`
(greedy) then the literal (case-insensitive) section name, then `.*?`
(lazy, `.` matches any character under DOTALL) until the first position
where the lookahead `(?=\n#+\s+)` holds or `$` holds (`$` = end of string,
or just before a terminal newline, as without `re.MULTILINE`); both
alternatives of group 2 are zero-width, so the match end is the end of
group 1.  `re.escape` makes the section name a literal.  Case folding and
the whitespace class are modelled at ASCII granularity.
-/

/-- Python's `\s` whitespace class, at ASCII granularity. -/
def isPySpace (c : Char) : Bool :=
  c = ' ' || c = '\t' || c = '\n' || c = '\r' || c = '\x0b' || c = '\x0c'

/-- Case-insensitive character comparison (ASCII case folding, as
`Char.toLower` lowers only `A`–`Z`). -/
def lowEq (a b : Char) : Bool := a.toLower = b.toLower

/-- `name` matches the text starting at the head of `rest`,
case-insensitively (the literal produced by `re.escape` under
`re.IGNORECASE`). -/
def ciPrefix : List Char → List Char → Bool
  | [], _ => true
  | _ :: _, [] => false
  | a :: as, b :: bs => lowEq a b && ciPrefix as bs

/-- Length of the maximal run of `#` at position `p` (what greedy `#+`
consumes first). -/
def hashRun (content : List Char) (p : Nat) : Nat :=
  ((content.drop p).takeWhile (fun c => c = '#')).length

/-- Length of the maximal run of `\s` characters at position `p` (what
greedy `\s+` consumes first). -/
def wsRun (content : List Char) (p : Nat) : Nat :=
  ((content.drop p).takeWhile isPySpace).length

/-- Backtracking over `\s+`: try the whitespace length `j` from the given
maximum down to 1, returning the first `j` after which the literal name
matches. -/
def tryJ (content name : List Char) (p1 : Nat) : Nat → Option Nat
  | 0 => none
  | j + 1 =>
    if ciPrefix name (content.drop (p1 + (j + 1))) then some (j + 1)
    else tryJ content name p1 j

/-- Backtracking over `#+` (outer, greedy) and `\s+` (inner, greedy): the
first pair `(k, j)` in the engine's order such that `k` hashes, then `j`
whitespace characters, then the literal name match at position `p`. -/
def tryK (content name : List Char) (p : Nat) : Nat → Option (Nat × Nat)
  | 0 => none
  | k + 1 =>
    match tryJ content name (p + (k + 1)) (wsRun content (p + (k + 1))) with
    | some j => some (k + 1, j)
    | none => tryK content name p k

/-- The lookahead `(?=\n#+\s+)` holds at position `q`: a newline at `q`,
then at least one `#`, then a whitespace character.  (A whitespace can
only follow the full `#` run, since `#` is not whitespace.) -/
def lookaheadOk (content : List Char) (q : Nat) : Bool :=
  content.getD q 'x' = '\n' &&
    (let r := hashRun content (q + 1)
     decide (0 < r) && decide (q + 1 + r < content.length) &&
       isPySpace (content.getD (q + 1 + r) 'x'))

/-- `$` (without `re.MULTILINE`) holds at position `q`: end of string, or
just before a newline that ends the string. -/
def dollarOk (content : List Char) (q : Nat) : Bool :=
  decide (q = content.length) ||
    (decide (q + 1 = content.length) && decide (content.getD q 'x' = '\n'))

/-- End position of the lazy body `.*?`: the least `q ≥ p3` at which the
lookahead or `$` succeeds (`$` always succeeds at the end of the string,
so the fallback arm is unreachable when `p3 ≤ length`). -/
def bodyEnd (content : List Char) (p3 : Nat) : Nat :=
  match (List.range' p3 (content.length + 1 - p3)).find?
      (fun q => lookaheadOk content q || dollarOk content q) with
  | some q => q
  | none => content.length

/-- Attempt the whole pattern at start position `p`; on success return the
match end (= end of group 1, both group-2 alternatives being zero-width).
Once `#+\s+name` matches, the lazy body always succeeds because `$` holds
at the end of the string. -/
def matchAt (content name : List Char) (p : Nat) : Option Nat :=
  match tryK content name p (hashRun content p) with
  | some (k, j) => some (bodyEnd content (p + k + j + name.length))
  | none => none

/-- `re.search` for the section pattern: the leftmost start position with
a match, paired with the match end. -/
def reSearch (content name : List Char) : Option (Nat × Nat) :=
  (List.range (content.length + 1)).findSome?
    (fun p => (matchAt content name p).map (fun e => (p, e)))

/-- Python `str.rstrip()` (ASCII whitespace granularity). -/
def rstripList (l : List Char) : List Char :=
  (l.reverse.dropWhile isPySpace).reverse

/-- Python `str.endswith('\n')`. -/
def endsNL (l : List Char) : Bool := l.getLast? = some '\n'

/-- `ReadmeUpdater._update_section_content`: on a regex match, splice
`group(1).rstrip() + "\n\n" + new_content + "\n"` over the match span;
otherwise ensure a trailing newline and append
`"\n## " + section_name + "\n\n" + new_content + "\n"`. -/
def update_section_content (content name newContent : List Char) : List Char :=
  match reSearch content name with
  | some (s, e) =>
    content.take s ++ rstripList ((content.take e).drop s) ++
      "\n\n".toList ++ newContent ++ "\n".toList ++ content.drop e
  | none =>
    (if endsNL content then content else content ++ "\n".toList) ++
      "\n## ".toList ++ name ++ "\n\n".toList ++ newContent ++ "\n".toList

/-- Python `content.split('\n')` (note `"".split('\n') = [""]`). -/
def splitNL : List Char → List (List Char)
  | [] => [[]]
  | c :: rest =>
    if c = '\n' then [] :: splitNL rest
    else
      match splitNL rest with
      | l :: ls => (c :: l) :: ls
      | [] => [[c]]

/-- Python `'\n'.join(lines)`. -/
def joinNL (lines : List (List Char)) : List Char :=
  List.intercalate "\n".toList lines

/-- Python `str.strip()` (ASCII whitespace granularity). -/
def stripList (l : List Char) : List Char :=
  ((l.dropWhile isPySpace).reverse.dropWhile isPySpace).reverse

/-- Python `list.insert(n, a)` for a non-negative index: insert at `n`,
clamped to an append when `n` exceeds the length (which is exactly
`take n ++ [a] ++ drop n`). -/
def pyInsert (l : List (List Char)) (n : Nat) (a : List Char) :
    List (List Char) :=
  l.take n ++ [a] ++ l.drop n

/-- A line whose stripped form starts with `![` or `[![` (the badge-line
test in `_find_badge_section`). -/
def isBadgeLine (l : List Char) : Bool :=
  "![".toList.isPrefixOf (stripList l) || "[![".toList.isPrefixOf (stripList l)

/-- A line that starts with `#` (the heading test in
`_find_badge_section`). -/
def isHeadingLine (l : List Char) : Bool :=
  "#".toList.isPrefixOf l

/-- `ReadmeUpdater._find_badge_section`: index of the first badge line;
else first-heading index + 1; else `-1` (modelled as `none`). -/
def find_badge_section (lines : List (List Char)) : Option Nat :=
  match lines.findIdx? isBadgeLine with
  | some i => some i
  | none => (lines.findIdx? isHeadingLine).map (fun i => i + 1)

/-- The pure text transform inside `ReadmeUpdater.add_badge`, from the
in-memory `current_content` to the written `updated_content` (the file
read supplies `"# Project\n\n"` when the README does not exist). -/
def add_badge (content badge : List Char) : List Char :=
  let lines := splitNL content
  match find_badge_section lines with
  | none => joinNL (pyInsert (pyInsert lines 2 []) 3 badge)
  | some i => joinNL (pyInsert lines (i + 1) badge)

/-- A line that starts with `## [` (the versioned-entry test in
`_find_changelog_insert_point`). -/
def isVersionedLine (l : List Char) : Bool :=
  "## [".toList.isPrefixOf l

/-- A line containing the word `changelog` after lowering
(`'changelog' in line.lower()`). -/
def mentionsChangelog (l : List Char) : Bool :=
  (l.map Char.toLower).tails.any
    (fun t => "changelog".toList.isPrefixOf t)

/-- `ReadmeUpdater._find_changelog_insert_point`: index of the first
`## [` line; else first `changelog`-mentioning line index + 2; else the
number of lines. -/
def find_changelog_insert_point (lines : List (List Char)) : Nat :=
  match lines.findIdx? isVersionedLine with
  | some i => i
  | none =>
    match lines.findIdx? mentionsChangelog with
    | some i => i + 2
    | none => lines.length

/-- The new-entry string built by `ReadmeUpdater.update_changelog`:
`"\n## [version] - date\n\n"` followed by one `- change` bullet line per
change (the date string is a parameter of the model). -/
def new_entry (version date : List Char) (changes : List (List Char)) :
    List Char :=
  "\n## [".toList ++ version ++ "] - ".toList ++ date ++ "\n\n".toList ++
    (changes.map (fun c => "- ".toList ++ c ++ "\n".toList)).flatten

/-- The insertion loop of `update_changelog`: insert the entry lines one
by one at consecutive indices `idx, idx + 1, …`. -/
def insertSeq (lines : List (List Char)) (idx : Nat) :
    List (List Char) → List (List Char)
  | [] => lines
  | e :: es => insertSeq (pyInsert lines idx e) (idx + 1) es

/-- The pure text transform inside `ReadmeUpdater.update_changelog`, from
the in-memory `current_content` to the written `updated_content` (the
file read supplies a default header document when CHANGELOG.md does not
exist, and `datetime.now` supplies `date`). -/
def update_changelog (content version date : List Char)
    (changes : List (List Char)) : List Char :=
  let lines := splitNL content
  let idx := find_changelog_insert_point lines
  joinNL (insertSeq lines idx (splitNL (new_entry version date changes)))

/-- Number of heading lines (`#`-prefixed) of a document. -/
def headingCount (content : List Char) : Nat :=
  (splitNL content).countP isHeadingLine

/-- Number of badge lines (stripped form starting `![` or `[![`) of a
document. -/
def badgeCount (content : List Char) : Nat :=
  (splitNL content).countP isBadgeLine

lemma pyInsert_take (l : List (List Char)) (n : Nat) (e : List Char) :
    (pyInsert l n e).take (n + 1) = l.take n ++ [e] := by
  unfold pyInsert
  rcases le_or_lt n l.length with h | h
  · have h1 : (l.take n ++ [e]).length = n + 1 := by
      simp [List.length_take, Nat.min_eq_left h]
    rw [List.append_assoc, ← List.append_assoc]
    exact List.take_left' h1
  · have ht : l.take n = l := List.take_of_length_le (Nat.le_of_lt h)
    have hd : l.drop n = [] := List.drop_eq_nil_of_le (Nat.le_of_lt h)
    rw [ht, hd, List.append_nil]
    exact List.take_of_length_le (by simp; omega)

lemma pyInsert_drop (l : List (List Char)) (n : Nat) (e : List Char) :
    (pyInsert l n e).drop (n + 1) = l.drop n := by
  unfold pyInsert
  rcases le_or_lt n l.length with h | h
  · have h1 : (l.take n ++ [e]).length = n + 1 := by
      simp [List.length_take, Nat.min_eq_left h]
    rw [List.append_assoc, ← List.append_assoc]
    exact List.drop_left' h1
  · have ht : l.take n = l := List.take_of_length_le (Nat.le_of_lt h)
    have hd : l.drop n = [] := List.drop_eq_nil_of_le (Nat.le_of_lt h)
    rw [ht, hd, List.append_nil]
    exact List.drop_eq_nil_of_le (by simp; omega)

/-- The sequential `list.insert` loop of `update_changelog` splices the
inserted lines as one contiguous block at the starting index. -/
lemma insertSeq_splice (es : List (List Char)) :
    ∀ (l : List (List Char)) (n : Nat),
      insertSeq l n es = l.take n ++ es ++ l.drop n := by
  induction es with
  | nil => intro l n; simp [insertSeq]
  | cons e es ih =>
    intro l n
    rw [insertSeq, ih, pyInsert_take, pyInsert_drop]
    simp

lemma tryK_bounds (content name : List Char) (p : Nat) :
    ∀ n k j, tryK content name p n = some (k, j) → 1 ≤ k ∧ k ≤ n := by
  intro n
  induction n with
  | zero => intro k j h; simp [tryK] at h
  | succ m ih =>
    intro k j h
    rw [tryK] at h
    cases hj : tryJ content name (p + (m + 1)) (wsRun content (p + (m + 1))) with
    | some j0 =>
      rw [hj] at h
      simp at h
      omega
    | none =>
      rw [hj] at h
      have := ih k j h
      omega

lemma bodyEnd_le (content : List Char) (p3 : Nat) :
    bodyEnd content p3 ≤ content.length := by
  unfold bodyEnd
  cases hf : (List.range' p3 (content.length + 1 - p3)).find?
      (fun q => lookaheadOk content q || dollarOk content q) with
  | none => simp
  | some q =>
    simp only []
    have hm : q ∈ List.range' p3 (content.length + 1 - p3) :=
      List.mem_of_find?_eq_some hf
    rw [List.mem_range'] at hm
    obtain ⟨i, hi, rfl⟩ := hm
    omega

lemma matchAt_some_hash (content name : List Char) (p e : Nat)
    (h : matchAt content name p = some e) : 1 ≤ hashRun content p := by
  unfold matchAt at h
  cases hk : tryK content name p (hashRun content p) with
  | none => rw [hk] at h; simp at h
  | some kj =>
    have := tryK_bounds content name p (hashRun content p) kj.1 kj.2
      (by rw [hk])
    omega

lemma matchAt_some_end_le (content name : List Char) (p e : Nat)
    (h : matchAt content name p = some e) : e ≤ content.length := by
  unfold matchAt at h
  cases hk : tryK content name p (hashRun content p) with
  | none => rw [hk] at h; simp at h
  | some kj =>
    rw [hk] at h
    simp at h
    rw [← h]
    exact bodyEnd_le content _

lemma reSearch_some_matchAt (content name : List Char) (st en : Nat)
    (h : reSearch content name = some (st, en)) :
    matchAt content name st = some en := by
  unfold reSearch at h
  obtain ⟨p, _, hp⟩ := List.exists_of_findSome?_eq_some h
  cases hm : matchAt content name p with
  | none => rw [hm] at hp; simp at hp
  | some e =>
    rw [hm] at hp
    simp at hp
    obtain ⟨h1, h2⟩ := hp
    rw [← h1, ← h2]
    exact hm

/-- A successful search starts strictly inside the document (the match
begins with at least one `#`). -/
lemma reSearch_start_lt (content name : List Char) (st en : Nat)
    (h : reSearch content name = some (st, en)) : st < content.length := by
  have hm := reSearch_some_matchAt content name st en h
  have h1 := matchAt_some_hash content name st en hm
  unfold hashRun at h1
  have h2 : ((content.drop st).takeWhile (fun c => c = '#')).length ≤
      (content.drop st).length := (List.takeWhile_prefix _).length_le
  have h3 : 1 ≤ (content.drop st).length := le_trans h1 h2
  rw [List.length_drop] at h3
  omega

/-- A successful search ends no later than the end of the document. -/
lemma reSearch_end_le (content name : List Char) (st en : Nat)
    (h : reSearch content name = some (st, en)) : en ≤ content.length := by
  exact matchAt_some_end_le content name st en
    (reSearch_some_matchAt content name st en h)

/-- C1: the claim says the found branch keeps the matched heading line,
discards the old section body, and splices heading + blank + newContent;
on the spec's worked example the code instead RETAINS the old body
(`group(1)` of the pattern spans heading AND body, and `rstrip` only
trims trailing whitespace), producing
`"# Title\n\n## Usage\nOld text\n\nNew text\n\n## License\nMIT\n"` rather
than the spec's expected output. -/
theorem C1_update_section_retains_old_body :
    update_section_content
        "# Title\n\n## Usage\nOld text\n\n## License\nMIT\n".toList
        "Usage".toList "New text".toList =
      "# Title\n\n## Usage\nOld text\n\nNew text\n\n## License\nMIT\n".toList ∧
    update_section_content
        "# Title\n\n## Usage\nOld text\n\n## License\nMIT\n".toList
        "Usage".toList "New text".toList ≠
      "# Title\n\n## Usage\n\nNew text\n\n## License\nMIT\n".toList := by
  exact ⟨by decide, by decide⟩

/-- C2: the claim says `updateSection` is idempotent — applying it twice
with the same content yields the section body equal to `c` exactly once.
On the code a second application appends another copy of `c` after the
retained previous body: starting from `"## Usage\nOld\n"`, two
applications with content `"New"` yield a section body containing `"New"`
twice (and the old body), and the second application changes the
document again. -/
theorem C2_update_section_not_idempotent :
    update_section_content
        (update_section_content "## Usage\nOld\n".toList "Usage".toList
          "New".toList) "Usage".toList "New".toList =
      "## Usage\nOld\n\nNew\n\nNew\n\n".toList ∧
    update_section_content
        (update_section_content "## Usage\nOld\n".toList "Usage".toList
          "New".toList) "Usage".toList "New".toList ≠
      update_section_content "## Usage\nOld\n".toList "Usage".toList
        "New".toList := by
  exact ⟨by decide, by decide⟩

/-- C3: frame property — when the search matches span `[st, en)`, the
result of `update_section_content` preserves the text before `st` and the
text from `en` on, byte-for-byte (as its prefix of length `st` and its
suffix of length `length d - en`). -/
theorem C3_update_section_frame (d name c : List Char) (st en : Nat)
    (h : reSearch d name = some (st, en)) :
    (update_section_content d name c).take st = d.take st ∧
    (update_section_content d name c).drop
        ((update_section_content d name c).length - (d.length - en)) =
      d.drop en := by
  have hst : st < d.length := reSearch_start_lt d name st en h
  have hres : update_section_content d name c =
      (d.take st ++ (rstripList ((d.take en).drop st) ++
        ("\n\n".toList ++ (c ++ "\n".toList)))) ++ d.drop en := by
    unfold update_section_content
    rw [h]
    simp [List.append_assoc]
  constructor
  · rw [hres, List.append_assoc]
    exact List.take_left' (by rw [List.length_take]; omega)
  · rw [hres]
    have hlen : ((d.take st ++ (rstripList ((d.take en).drop st) ++
        ("\n\n".toList ++ (c ++ "\n".toList)))) ++ d.drop en).length -
          (d.length - en) =
        (d.take st ++ (rstripList ((d.take en).drop st) ++
          ("\n\n".toList ++ (c ++ "\n".toList)))).length := by
      simp only [List.length_append, List.length_drop]
      omega
    rw [hlen]
    exact List.drop_left _ _

/-- Witness for C3 at the spec's worked example, where the match span is
`[9, 27)`. -/
theorem C3_witness :
    reSearch "# Title\n\n## Usage\nOld text\n\n## License\nMIT\n".toList
        "Usage".toList = some (9, 27) ∧
    ((update_section_content
        "# Title\n\n## Usage\nOld text\n\n## License\nMIT\n".toList
        "Usage".toList "New text".toList).take 9 =
      ("# Title\n\n## Usage\nOld text\n\n## License\nMIT\n".toList).take 9 ∧
    (update_section_content
        "# Title\n\n## Usage\nOld text\n\n## License\nMIT\n".toList
        "Usage".toList "New text".toList).drop
        ((update_section_content
          "# Title\n\n## Usage\nOld text\n\n## License\nMIT\n".toList
          "Usage".toList "New text".toList).length -
          ("# Title\n\n## Usage\nOld text\n\n## License\nMIT\n".toList.length -
            27)) =
      "# Title\n\n## Usage\nOld text\n\n## License\nMIT\n".toList.drop 27) :=
  ⟨by decide, C3_update_section_frame _ _ _ 9 27 (by decide)⟩

/-- C4 counterexample: in `"Use # Usage here\n"` the only `#` is mid-line
(the character before position 4 is a space, not a newline, and the
position is not 0), yet the search matches there (span `[4, 16)`) and the
found branch splices at that mid-line match — refuting the claim that a
heading marker not at a line start is never treated as the matched
section heading. -/
theorem C4_counterexample :
    "Use # Usage here\n".toList.getD 3 'x' = ' ' ∧
    reSearch "Use # Usage here\n".toList "Usage".toList = some (4, 16) ∧
    update_section_content "Use # Usage here\n".toList "Usage".toList
        "New".toList = "Use # Usage here\n\nNew\n\n".toList := by
  exact ⟨by decide, by decide, by decide⟩

/-- C4 (amended): the search is unanchored — the pattern
`#`-run + whitespace + name may match at any position, and even when the
match start is mid-line (nonzero, not preceded by a newline) the found
branch is taken and the splice happens at the mid-line match. -/
theorem C4_midline_match_is_spliced (d name c : List Char) (st en : Nat)
    (h : reSearch d name = some (st, en)) (_h0 : 0 < st)
    (_hnl : d.getD (st - 1) 'x' ≠ '\n') :
    update_section_content d name c =
      d.take st ++ rstripList ((d.take en).drop st) ++ "\n\n".toList ++ c ++
        "\n".toList ++ d.drop en := by
  unfold update_section_content
  rw [h]

/-- Witness for C4 at the mid-line input `"Use # Usage here\n"`. -/
theorem C4_witness :
    reSearch "Use # Usage here\n".toList "Usage".toList = some (4, 16) ∧
    0 < 4 ∧ "Use # Usage here\n".toList.getD 3 'x' ≠ '\n' ∧
    update_section_content "Use # Usage here\n".toList "Usage".toList
        "New".toList =
      "Use # Usage here\n".toList.take 4 ++
        rstripList (("Use # Usage here\n".toList.take 16).drop 4) ++
        "\n\n".toList ++ "New".toList ++ "\n".toList ++
        "Use # Usage here\n".toList.drop 16 :=
  ⟨by decide, by decide, by decide,
    C4_midline_match_is_spliced _ _ _ 4 16 (by decide) (by decide)
      (by decide)⟩

/-- C5: when no heading matches, `update_section_content` first ensures
the document ends with a newline and then appends
`"\n## " + name + "\n\n" + c + "\n"`; in particular the original document
is a prefix of the normalized document the new section is appended to. -/
theorem C5_not_found_appends_new_section (d name c : List Char)
    (h : reSearch d name = none) :
    update_section_content d name c =
      (if endsNL d then d else d ++ "\n".toList) ++ "\n## ".toList ++ name ++
        "\n\n".toList ++ c ++ "\n".toList ∧
    d <+: (if endsNL d then d else d ++ "\n".toList) := by
  constructor
  · unfold update_section_content
    rw [h]
  · by_cases hd : endsNL d
    · simp [hd]
    · simp [hd]

/-- Witness for C5 on the heading-free document `"hello"`. -/
theorem C5_witness :
    reSearch "hello".toList "Usage".toList = none ∧
    (update_section_content "hello".toList "Usage".toList "stuff".toList =
        (if endsNL "hello".toList then "hello".toList
          else "hello".toList ++ "\n".toList) ++ "\n## ".toList ++
          "Usage".toList ++ "\n\n".toList ++ "stuff".toList ++ "\n".toList ∧
      "hello".toList <+:
        (if endsNL "hello".toList then "hello".toList
          else "hello".toList ++ "\n".toList)) :=
  ⟨by decide, C5_not_found_appends_new_section _ _ _ (by decide)⟩

/-- C6 counterexample: on the existing empty document the code inserts a
blank line and the badge at line indices 2 and 3 WITHOUT synthesizing a
default heading: the result is `"\n\n![build](url)"`, which has zero
heading lines, not the claimed one heading, and differs from the spec's
expected `"# Project\n\n![build](url)\n"`. -/
theorem C6_counterexample :
    add_badge "".toList "![build](url)".toList =
      "\n\n![build](url)".toList ∧
    headingCount (add_badge "".toList "![build](url)".toList) = 0 ∧
    add_badge "".toList "![build](url)".toList ≠
      "# Project\n\n![build](url)\n".toList := by
  exact ⟨by decide, by decide, by decide⟩

/-- C6 (amended): the default single-heading document arises only from
the file-missing fallback, where the read supplies `"# Project\n\n"`; on
that content `add_badge` produces the spec's expected
`"# Project\n\n![build](url)\n"`, with exactly one heading line and one
badge line. -/
theorem C6_default_content_badge :
    add_badge "# Project\n\n".toList "![build](url)".toList =
      "# Project\n\n![build](url)\n".toList ∧
    headingCount (add_badge "# Project\n\n".toList "![build](url)".toList) =
      1 ∧
    badgeCount (add_badge "# Project\n\n".toList "![build](url)".toList) =
      1 := by
  exact ⟨by decide, by decide, by decide⟩

/-- C7 counterexample: on `"# Title\nSome text\nMore\n"` (a heading, no
badges) the badge is inserted at line index 2, two lines below the
heading, but NO blank line is inserted: the line between heading and
badge is the pre-existing `"Some text"`, refuting the claim that the
operation itself inserts a blank-line separator. -/
theorem C7_counterexample :
    add_badge "# Title\nSome text\nMore\n".toList "![b]".toList =
      "# Title\nSome text\n![b]\nMore\n".toList ∧
    (splitNL (add_badge "# Title\nSome text\nMore\n".toList
        "![b]".toList)).getD 1 [] = "Some text".toList ∧
    (splitNL (add_badge "# Title\nSome text\nMore\n".toList
        "![b]".toList)).getD 2 [] = "![b]".toList := by
  exact ⟨by decide, by decide, by decide⟩

/-- C7 (amended): with no badge line and a first heading at line index
`i`, `add_badge` places the badge at line index `i + 2`, leaving every
existing line (including the one at `i + 1`) in place; no blank line is
inserted. -/
theorem C7_badge_two_below_heading (content badge : List Char) (i : Nat)
    (hb : (splitNL content).findIdx? isBadgeLine = none)
    (hh : (splitNL content).findIdx? isHeadingLine = some i) :
    add_badge content badge =
      joinNL ((splitNL content).take (i + 2) ++ [badge] ++
        (splitNL content).drop (i + 2)) := by
  simp [add_badge, find_badge_section, hb, hh, pyInsert]

/-- Witness for C7 on `"# Title\nSome text\nMore\n"`, heading at line
index 0. -/
theorem C7_witness :
    (splitNL "# Title\nSome text\nMore\n".toList).findIdx? isBadgeLine =
      none ∧
    (splitNL "# Title\nSome text\nMore\n".toList).findIdx? isHeadingLine =
      some 0 ∧
    add_badge "# Title\nSome text\nMore\n".toList "![b]".toList =
      joinNL ((splitNL "# Title\nSome text\nMore\n".toList).take (0 + 2) ++
        ["![b]".toList] ++
        (splitNL "# Title\nSome text\nMore\n".toList).drop (0 + 2)) :=
  ⟨by decide, by decide,
    C7_badge_two_below_heading _ _ 0 (by decide) (by decide)⟩

/-- C8: the changelog entry (blank line, `## [version] - date` heading,
blank line, one bullet per change, trailing blank) is spliced as one
contiguous block immediately before the first existing `## [` line; with
no such line, two lines below the first line mentioning `changelog`
(case-insensitively); with neither, at the end of the document. -/
theorem C8_changelog_insert_point (content v dt : List Char)
    (chs : List (List Char)) :
    update_changelog content v dt chs =
      joinNL
        (match (splitNL content).findIdx? isVersionedLine with
         | some i =>
           (splitNL content).take i ++ splitNL (new_entry v dt chs) ++
             (splitNL content).drop i
         | none =>
           match (splitNL content).findIdx? mentionsChangelog with
           | some i =>
             (splitNL content).take (i + 2) ++
               splitNL (new_entry v dt chs) ++
               (splitNL content).drop (i + 2)
           | none => splitNL content ++ splitNL (new_entry v dt chs)) := by
  simp only [update_changelog, find_changelog_insert_point, insertSeq_splice]
  cases h1 : (splitNL content).findIdx? isVersionedLine with
  | some i => simp
  | none =>
    cases h2 : (splitNL content).findIdx? mentionsChangelog with
    | some i => simp
    | none => simp [List.take_length, List.drop_length]

/-- C9: absence of an anchor is never an error — with no section-pattern
match, no badge or heading line, and no `## [` or `changelog` line, each
of the three pure transforms still returns a complete rewritten document
via its fallback insertion policy (Lean totality of the embedded
functions models the no-raise behaviour). -/
theorem C9_no_anchor_fallbacks (d s c b v dt : List Char)
    (chs : List (List Char))
    (h1 : reSearch d s = none)
    (h2 : find_badge_section (splitNL d) = none)
    (h3 : (splitNL d).findIdx? isVersionedLine = none)
    (h4 : (splitNL d).findIdx? mentionsChangelog = none) :
    update_section_content d s c =
      (if endsNL d then d else d ++ "\n".toList) ++ "\n## ".toList ++ s ++
        "\n\n".toList ++ c ++ "\n".toList ∧
    add_badge d b = joinNL (pyInsert (pyInsert (splitNL d) 2 []) 3 b) ∧
    update_changelog d v dt chs =
      joinNL (splitNL d ++ splitNL (new_entry v dt chs)) := by
  refine ⟨?_, ?_, ?_⟩
  · unfold update_section_content
    rw [h1]
  · simp [add_badge, h2]
  · simp only [update_changelog, find_changelog_insert_point,
      insertSeq_splice, h3, h4]
    simp [List.take_length, List.drop_length]

/-- Witness for C9 on the anchor-free document `"hello world"`. -/
theorem C9_witness :
    update_section_content "hello world".toList "Usage".toList "x".toList =
      (if endsNL "hello world".toList then "hello world".toList
        else "hello world".toList ++ "\n".toList) ++ "\n## ".toList ++
        "Usage".toList ++ "\n\n".toList ++ "x".toList ++ "\n".toList ∧
    add_badge "hello world".toList "![b]".toList =
      joinNL (pyInsert (pyInsert (splitNL "hello world".toList) 2 []) 3
        "![b]".toList) ∧
    update_changelog "hello world".toList "1.0".toList "D".toList
        ["fix".toList] =
      joinNL (splitNL "hello world".toList ++
        splitNL (new_entry "1.0".toList "D".toList ["fix".toList])) :=
  C9_no_anchor_fallbacks _ _ _ _ _ _ _ (by decide) (by decide) (by decide)
    (by decide)

/-- C10 counterexample: on `"## Usage\nOld\n## Other\nMIT"` (no trailing
newline, a later heading) the found-branch result ends in `'T'`, not in a
newline — refuting the claimed unconditional trailing-newline
postcondition. -/
theorem C10_counterexample :
    update_section_content "## Usage\nOld\n## Other\nMIT".toList
        "Usage".toList "New".toList =
      "## Usage\nOld\n\nNew\n\n## Other\nMIT".toList ∧
    endsNL (update_section_content "## Usage\nOld\n## Other\nMIT".toList
        "Usage".toList "New".toList) = false := by
  exact ⟨by decide, by decide⟩

/-- C10 (amended): the result always contains `c` as a substring; it ends
with a newline in the not-found branch, and in the found branch whenever
the input document itself ends with a newline. -/
theorem C10_contains_content (d s c : List Char) :
    c <:+: update_section_content d s c ∧
    (endsNL d = true → endsNL (update_section_content d s c) = true) ∧
    (reSearch d s = none → endsNL (update_section_content d s c) = true) := by
  cases h : reSearch d s with
  | none =>
    have hres : update_section_content d s c =
        (if endsNL d then d else d ++ "\n".toList) ++ "\n## ".toList ++ s ++
          "\n\n".toList ++ c ++ "\n".toList := by
      unfold update_section_content
      rw [h]
    refine ⟨?_, ?_, ?_⟩
    · refine ⟨(if endsNL d then d else d ++ "\n".toList) ++ "\n## ".toList ++
        s ++ "\n\n".toList, "\n".toList, ?_⟩
      rw [hres]
    · intro _
      rw [hres]
      unfold endsNL
      rw [List.getLast?_append_of_ne_nil _ (by simp)]
      decide
    · intro _
      rw [hres]
      unfold endsNL
      rw [List.getLast?_append_of_ne_nil _ (by simp)]
      decide
  | some se =>
    obtain ⟨st, en⟩ := se
    have hen : en ≤ d.length := reSearch_end_le d s st en h
    have hres : update_section_content d s c =
        d.take st ++ rstripList ((d.take en).drop st) ++ "\n\n".toList ++
          c ++ "\n".toList ++ d.drop en := by
      unfold update_section_content
      rw [h]
    refine ⟨?_, ?_, ?_⟩
    · refine ⟨d.take st ++ rstripList ((d.take en).drop st) ++ "\n\n".toList,
        "\n".toList ++ d.drop en, ?_⟩
      rw [hres]
      simp [List.append_assoc]
    · intro hd
      rw [hres]
      rcases Nat.lt_or_ge en d.length with hlt | hge
      · have hne : d.drop en ≠ [] := by
          have : (d.drop en).length > 0 := by
            rw [List.length_drop]
            omega
          exact List.ne_nil_of_length_pos this
        have hlast : (d.drop en).getLast? = d.getLast? := by
          conv_rhs => rw [← List.take_append_drop en d]
          rw [List.getLast?_append_of_ne_nil _ hne]
        unfold endsNL at hd ⊢
        rw [List.getLast?_append_of_ne_nil _ hne, hlast]
        exact hd
      · have hdrop : d.drop en = [] := List.drop_eq_nil_of_le hge
        rw [hdrop, List.append_nil]
        unfold endsNL
        rw [List.getLast?_append_of_ne_nil _ (by simp)]
        decide
    · intro hn
      exact absurd hn (by simp)

/-- Witness for C10 on `"hi\n"` (newline-terminated, no matching
heading), discharging both conditional conclusions. -/
theorem C10_witness :
    "x".toList <:+:
      update_section_content "hi\n".toList "Usage".toList "x".toList ∧
    endsNL (update_section_content "hi\n".toList "Usage".toList
      "x".toList) = true ∧
    endsNL (update_section_content "hi\n".toList "Usage".toList
      "x".toList) = true :=
  ⟨(C10_contains_content "hi\n".toList "Usage".toList "x".toList).1,
    (C10_contains_content "hi\n".toList "Usage".toList "x".toList).2.1
      (by decide),
    (C10_contains_content "hi\n".toList "Usage".toList "x".toList).2.2
      (by decide)⟩
